import Mathlib

/-!
Verification of the green_power_ledger durable operation orchestrator.

This file shallowly embeds the TypeScript source of the repository:

* `src/src/xrpl/validation.ts`        — `waitForValidation`
* `src/src/jobs/validation-poller.ts` — `ValidationPoller.checkStep` /
  `updateOperationStatusIfNeeded`
* `src/src/operations/base-operation.ts` — the step/operation status enums,
  `updateStepStatus`, `updateOperationStatus`, `BaseOperation.execute`
* `src/src/operations/index.ts` (MintOperation) — `executeIssuerMint`,
  `executeUserAuthorize`, `executeIssuerTransfer`, `extractMPTIssuanceId`
* `src/src/api/handlers/mint.ts` — `handleMint`
* the wallet lock manager (`WalletLockManager.withLock`)
* the structured logger's secret-redaction guard
  (`Logger.log` / `Logger.containsSensitiveData`)

Database rows are modelled as lists of records; each `pool.query` UPDATE or
INSERT becomes a pure function on the `DB` state.  Asynchronous waits are
modelled with explicit streams of ledger lookup outcomes (one element per
poll attempt) and wall-clock time as a natural number of milliseconds that
advances by the poll interval at every sleep, exactly as the source loop
`while (Date.now() - startTime < timeoutMs)` measures it.  Exceptions are
modelled with `Except String`.
-/

/-- `StepStatus` enum from `base-operation.ts`. -/
inductive StepStatus where
  | pending
  | submitted
  | pendingValidation
  | validatedSuccess
  | validatedFailed
  | timeout
deriving DecidableEq, Repr

/-- The literal string value of each `StepStatus` enum member (used in the
executor's diagnostic message `Step ${n} failed: ${status}`). -/
def StepStatus.str : StepStatus → String
  | .pending => "PENDING"
  | .submitted => "SUBMITTED"
  | .pendingValidation => "PENDING_VALIDATION"
  | .validatedSuccess => "VALIDATED_SUCCESS"
  | .validatedFailed => "VALIDATED_FAILED"
  | .timeout => "TIMEOUT"

/-- `OperationStatus` enum from `base-operation.ts`. -/
inductive OperationStatus where
  | pending
  | inProgress
  | success
  | failed
deriving DecidableEq, Repr

/-- `ValidationStatus` enum from `validation.ts`. -/
inductive ValidationStatus where
  | success
  | failed
  | timeout
deriving DecidableEq, Repr

/-- The fields of `txResult.result.meta` that the code reads: the
`TransactionResult` code (absent when the key is not in the meta object)
and the `mpt_issuance_id` carried by validated issuance creations. -/
structure TxMeta where
  transactionResult : Option String
  mptIssuanceId : Option String
deriving DecidableEq, Repr

/-- The fields of `txResult.result` that the code reads: the `validated`
flag and the `meta` object (`none` when meta is not an object). -/
structure TxResultData where
  validated : Bool
  meta : Option TxMeta
deriving DecidableEq, Repr

/-- One outcome of the adapter call `client.request({command:'tx',…})`:
either a response, or a thrown error (`txnNotFound` is the benign
not-yet-in-a-ledger signal; any other error is logged and also treated as
transient by the wait loop). -/
inductive LookupOutcome where
  | ok (d : TxResultData)
  | errTxnNotFound
  | errOther (msg : String)
deriving DecidableEq, Repr

/-- `ValidationResult` record returned by `waitForValidation`. -/
structure ValidationResult where
  status : ValidationStatus
  transactionResult : Option String
  details : Option TxResultData
deriving DecidableEq, Repr

/-- Default `timeoutMs` of `waitForValidation` (validation.ts line 25). -/
def defaultTimeoutMs : Nat := 15000

/-- Default `pollIntervalMs` of `waitForValidation` (validation.ts line 26). -/
def defaultPollIntervalMs : Nat := 2000

/-- The body of one iteration of the `waitForValidation` loop: classify a
single lookup outcome.  Returns `some result` when the loop returns
(validated response whose meta object carries a `TransactionResult`:
`tesSUCCESS` ↦ SUCCESS, anything else ↦ FAILED), `none` when the loop
sleeps and retries (not validated, meta missing the result code, or a
thrown adapter error). -/
def classifyLookup : LookupOutcome → Option ValidationResult
  | .ok d =>
    if d.validated then
      match d.meta with
      | some m =>
        match m.transactionResult with
        | some r =>
          if r = "tesSUCCESS" then
            some ⟨ValidationStatus.success, some r, some d⟩
          else
            some ⟨ValidationStatus.failed, some r, some d⟩
        | none => none
      | none => none
    else none
  | .errTxnNotFound => none
  | .errOther _ => none

/-- The `while (Date.now() - startTime < timeoutMs)` loop of
`waitForValidation`, with `elapsed` the milliseconds since `startTime`.
Each iteration performs one lookup and, when it does not terminate the
loop, sleeps `pollIntervalMs` before the next condition check.  The
lookup-outcome stream supplies one element per attempted lookup; the run
also returns how many lookups were performed.  (A stream exhausted while
the budget is still open is mapped to the TIMEOUT result; all theorems
below supply streams long enough that this cutoff is never reached within
the budget.) -/
def waitLoop (timeoutMs pollIntervalMs : Nat) :
    Nat → List LookupOutcome → ValidationResult × Nat
  | elapsed, lookups =>
    if elapsed < timeoutMs then
      match lookups with
      | [] => (⟨ValidationStatus.timeout, none, none⟩, 0)
      | l :: rest =>
        match classifyLookup l with
        | some r => (r, 1)
        | none =>
          let t := waitLoop timeoutMs pollIntervalMs (elapsed + pollIntervalMs) rest
          (t.1, t.2 + 1)
    else (⟨ValidationStatus.timeout, none, none⟩, 0)

/-- `waitForValidation(txHash, timeoutMs, pollIntervalMs)` from
`validation.ts`, as a function of the stream of successive lookup
outcomes for the transaction hash. -/
def waitForValidation (timeoutMs pollIntervalMs : Nat)
    (lookups : List LookupOutcome) : ValidationResult × Nat :=
  waitLoop timeoutMs pollIntervalMs 0 lookups

example :
    waitForValidation defaultTimeoutMs defaultPollIntervalMs
      [.errTxnNotFound,
       .ok ⟨true, some ⟨some "tesSUCCESS", none⟩⟩] =
    (⟨ValidationStatus.success, some "tesSUCCESS",
      some ⟨true, some ⟨some "tesSUCCESS", none⟩⟩⟩, 2) := by decide

example :
    waitForValidation 0 0
      [.ok ⟨true, some ⟨some "tesSUCCESS", none⟩⟩] =
    (⟨ValidationStatus.timeout, none, none⟩, 0) := by decide

/-! ## Durable store model (operations, operation_steps, wallets) -/

/-- A row of the `operations` table (columns the embedded code touches). -/
structure OperationRow where
  id : String
  opType : String
  idempotencyKey : String
  issuanceId : Option String
  fromWalletId : Option String
  toWalletId : Option String
  amount : String
  status : OperationStatus
  errorMessage : Option String
deriving DecidableEq, Repr

/-- A row of the `operation_steps` table (columns the embedded code
touches).  `lastCheckedBumps` counts how many times `last_checked_at` was
set to `NOW()`; `submitRecorded` / `validatedResult` model the
`submit_result` / `validated_result` audit blobs. -/
structure StepRow where
  id : String
  operationId : String
  stepNo : Nat
  kind : String
  walletId : Option String
  txType : String
  txHash : Option String
  submitRecorded : Bool
  validatedResult : Option TxResultData
  status : StepStatus
  lastCheckedBumps : Nat
deriving DecidableEq, Repr

/-- A row of the `wallets` table (columns the embedded code touches). -/
structure WalletRow where
  id : String
  xrplAddress : String
deriving DecidableEq, Repr

/-- The durable store. -/
structure DB where
  operations : List OperationRow
  steps : List StepRow
  wallets : List WalletRow
deriving DecidableEq, Repr

/-- `UPDATE operations … WHERE id = opId`. -/
def DB.updateOperation (db : DB) (opId : String)
    (f : OperationRow → OperationRow) : DB :=
  { db with operations :=
      db.operations.map fun o => if o.id = opId then f o else o }

/-- `UPDATE operation_steps … WHERE id = stepId`. -/
def DB.updateStep (db : DB) (stepId : String)
    (f : StepRow → StepRow) : DB :=
  { db with steps := db.steps.map fun s => if s.id = stepId then f s else s }

/-- `SELECT * FROM operation_steps WHERE id = stepId` (first row). -/
def DB.findStep (db : DB) (stepId : String) : Option StepRow :=
  db.steps.find? fun s => s.id = stepId

/-- `SELECT * FROM operations WHERE id = opId` (first row). -/
def DB.findOperation (db : DB) (opId : String) : Option OperationRow :=
  db.operations.find? fun o => o.id = opId

/-- `SELECT xrpl_address FROM wallets WHERE id = walletId` (first row). -/
def DB.findWallet (db : DB) (walletId : String) : Option WalletRow :=
  db.wallets.find? fun w => w.id = walletId

/-! ## base-operation.ts: status-update helpers -/

/-- `BaseOperation.updateOperationStatus(status, errorMessage?)`: sets
`status`, overwrites `error_message` (with NULL when no message is
passed), and touches `updated_at`. -/
def updateOperationStatusDB (db : DB) (opId : String)
    (st : OperationStatus) (errorMessage : Option String) : DB :=
  db.updateOperation opId fun o =>
    { o with status := st, errorMessage := errorMessage }

/-- `BaseOperation.updateStepStatus(stepId, status, updates?)`: sets
`status`, sets `tx_hash` / `submit_result` / `validated_result` only when
the corresponding update field is provided, and always touches
`last_checked_at` and `updated_at`. -/
def updateStepStatusDB (db : DB) (stepId : String) (st : StepStatus)
    (txHash : Option String) (submitRec : Bool)
    (validated : Option TxResultData) : DB :=
  db.updateStep stepId fun s =>
    { s with
      status := st
      txHash := match txHash with | some h => some h | none => s.txHash
      submitRecorded := submitRec || s.submitRecorded
      validatedResult :=
        match validated with | some v => some v | none => s.validatedResult
      lastCheckedBumps := s.lastCheckedBumps + 1 }

/-! ## validation-poller.ts -/

/-- `ValidationPoller.updateOperationStatusIfNeeded(operationId)`: loads
all steps of the operation and, when every one is VALIDATED_SUCCESS, sets
the operation to SUCCESS. -/
def updateOperationStatusIfNeeded (db : DB) (opId : String) : DB :=
  let stepsOfOp := db.steps.filter fun s => s.operationId = opId
  if stepsOfOp.all fun s => s.status = StepStatus.validatedSuccess then
    db.updateOperation opId fun o => { o with status := OperationStatus.success }
  else db

/-- `ValidationPoller.checkStep(step)`: calls
`waitForValidation(step.tx_hash, 0, 0)` and branches on the returned
status — SUCCESS ↦ set the step VALIDATED_SUCCESS (recording the
validated result and touching `last_checked_at`) then re-check the parent
operation; FAILED ↦ set the step VALIDATED_FAILED and the parent
operation FAILED with the message `Step ${n} validation failed`;
otherwise bump `last_checked_at` only.  Also returns the number of ledger
lookups that were performed. -/
def pollerCheckStep (db : DB) (step : StepRow)
    (lookups : List LookupOutcome) : DB × Nat :=
  let vr := waitForValidation 0 0 lookups
  if vr.1.status = ValidationStatus.success then
    let db1 := db.updateStep step.id fun s =>
      { s with
        status := StepStatus.validatedSuccess
        validatedResult := vr.1.details
        lastCheckedBumps := s.lastCheckedBumps + 1 }
    (updateOperationStatusIfNeeded db1 step.operationId, vr.2)
  else if vr.1.status = ValidationStatus.failed then
    let db1 := db.updateStep step.id fun s =>
      { s with
        status := StepStatus.validatedFailed
        validatedResult := vr.1.details
        lastCheckedBumps := s.lastCheckedBumps + 1 }
    let db2 := db1.updateOperation step.operationId fun o =>
      { o with
        status := OperationStatus.failed
        errorMessage :=
          some ("Step " ++ toString step.stepNo ++ " validation failed") }
    (db2, vr.2)
  else
    (db.updateStep step.id fun s =>
      { s with lastCheckedBumps := s.lastCheckedBumps + 1 }, vr.2)

/-- The sweep query of `ValidationPoller.poll()`:
`status = PENDING_VALIDATION AND tx_hash IS NOT NULL` (before the
`ORDER BY last_checked_at … LIMIT 10`). -/
def pollerSweepSelects (s : StepRow) : Bool :=
  s.status = StepStatus.pendingValidation && s.txHash.isSome

/-! ## submit.ts and the mint step routines (operations/index.ts) -/

/-- The fields of `SubmitResult` (submit.ts) that the step routines use. -/
structure SubmitResult where
  txHash : String
deriving DecidableEq, Repr

/-- Observable effects of a step routine on shared non-DB resources:
lock acquisition/release on the identity serializer, and a call into
`submitTransaction` signing as the given wallet address. -/
inductive Event where
  | lockAcquire (walletId : String)
  | lockRelease (walletId : String)
  | submit (address : String)
deriving DecidableEq, Repr

/-- Whether a trace contains any identity-serializer lock event. -/
def hasLockEvent (evs : List Event) : Bool :=
  evs.any fun e =>
    match e with
    | .lockAcquire _ => true
    | .lockRelease _ => true
    | .submit _ => false

/-- Whether a trace contains a submit event. -/
def hasSubmitEvent (evs : List Event) : Bool :=
  evs.any fun e =>
    match e with
    | .submit _ => true
    | _ => false

/-- `Wallet.fromSeed(seed).address` — the ledger library's address
derivation, opaque to the core; modelled as an injective tagging of the
seed (the claims under verification depend only on which identity signs,
never on address arithmetic). -/
def walletAddressOfSeed (seed : String) : String :=
  "address-of-" ++ seed

/-- The environment a mint-operation run draws on: the configured
`ISSUER_SEED`, the secret store (`WalletSecretManager.retrieveSecret`
as a partial map from wallet id to seed), and — for each of the three
steps — the outcome `submitTransaction` would produce and the stream of
ledger lookup outcomes its inline validation wait would observe. -/
structure MintEnv where
  issuerSeed : Option String
  secrets : String → Option String
  submit1 : Except String SubmitResult
  lookups1 : List LookupOutcome
  submit2 : Except String SubmitResult
  lookups2 : List LookupOutcome
  submit3 : Except String SubmitResult
  lookups3 : List LookupOutcome
  userWalletId : String
  amount : String

/-- Result of running one step routine: the new DB state, the routine's
outcome (`.error` models a thrown exception), and the trace of submit /
lock events. -/
structure StepRun where
  db : DB
  outcome : Except String Unit
  events : List Event
deriving Repr

/-- `MintOperation.extractMPTIssuanceId(details)`:
`details?.meta?.mpt_issuance_id ?? null`. -/
def extractMPTIssuanceId (details : Option TxResultData) : Option String :=
  match details with
  | some d =>
    match d.meta with
    | some m => m.mptIssuanceId
    | none => none
  | none => none

/-- The `catch` block shared by every step routine: on any thrown error it
sets the step to VALIDATED_FAILED (with no field updates) and rethrows. -/
def stepCatchAll (stepId : String) (r : StepRun) : StepRun :=
  match r.outcome with
  | .ok _ => r
  | .error e =>
    { r with
      db := updateStepStatusDB r.db stepId StepStatus.validatedFailed
              none false none
      outcome := .error e }

/-- The submit-then-wait tail shared by the three mint step routines
(steps 4–8 of each routine): submit, record `tx_hash` + `submit_result`
and mark the step SUBMITTED, run the inline `waitForValidation` with the
default budget, then branch — SUCCESS ↦ mark VALIDATED_SUCCESS recording
the validated result and run `onSuccess`; FAILED ↦ mark VALIDATED_FAILED
and throw; TIMEOUT ↦ mark PENDING_VALIDATION and throw
`Transaction validation timeout`. -/
def submitAndAwait (db : DB) (stepId : String) (signerAddress : String)
    (submitOutcome : Except String SubmitResult)
    (lookups : List LookupOutcome)
    (onSuccess : DB → ValidationResult → DB) : StepRun :=
  match submitOutcome with
  | .error e => ⟨db, .error e, [Event.submit signerAddress]⟩
  | .ok sr =>
    let db1 := updateStepStatusDB db stepId StepStatus.submitted
                 (some sr.txHash) true none
    let vr := (waitForValidation defaultTimeoutMs defaultPollIntervalMs lookups).1
    if vr.status = ValidationStatus.success then
      let db2 := updateStepStatusDB db1 stepId StepStatus.validatedSuccess
                   none false vr.details
      ⟨onSuccess db2 vr, .ok (), [Event.submit signerAddress]⟩
    else if vr.status = ValidationStatus.failed then
      let db2 := updateStepStatusDB db1 stepId StepStatus.validatedFailed
                   none false vr.details
      ⟨db2,
       .error ("Transaction validation failed: "
         ++ (match vr.transactionResult with | some r => r | none => "undefined")),
       [Event.submit signerAddress]⟩
    else
      let db2 := updateStepStatusDB db1 stepId StepStatus.pendingValidation
                   none false none
      ⟨db2, .error "Transaction validation timeout", [Event.submit signerAddress]⟩

/-- `MintOperation.executeIssuerMint(step)` (step 1): resolve the issuer
wallet from `ISSUER_SEED`, build the issuance-creation transaction,
submit, wait inline for validation, and on VALIDATED_SUCCESS extract the
`mpt_issuance_id` from the validated metadata and — only when present —
persist it to `operations.issuance_id`.  Every error is routed through
the routine's catch-all, which re-marks the step VALIDATED_FAILED and
rethrows.  No identity-serializer lock is acquired anywhere in the
routine (the source contains no `withLock` call). -/
def executeIssuerMint (env : MintEnv) (opId : String) (step : StepRow)
    (db : DB) : StepRun :=
  stepCatchAll step.id <|
    match env.issuerSeed with
    | none => ⟨db, .error "ISSUER_SEED is not configured in .env", []⟩
    | some seed =>
      submitAndAwait db step.id (walletAddressOfSeed seed)
        env.submit1 env.lookups1
        (fun db2 vr =>
          match extractMPTIssuanceId vr.details with
          | some mid =>
            db2.updateOperation opId fun o => { o with issuanceId := some mid }
          | none => db2)

/-- `MintOperation.getMPTIssuanceId()`: read `operations.issuance_id`,
throwing `MPT Issuance ID not found` when the row is missing or the
column is null. -/
def getMPTIssuanceId (db : DB) (opId : String) : Except String String :=
  match db.findOperation opId with
  | some o =>
    match o.issuanceId with
    | some i => .ok i
    | none => .error "MPT Issuance ID not found"
  | none => .error "MPT Issuance ID not found"

/-- `MintOperation.getUserAddress()`: read the user wallet's ledger
address, throwing when the wallet row is missing. -/
def getUserAddress (db : DB) (walletId : String) : Except String String :=
  match db.findWallet walletId with
  | some w => .ok w.xrplAddress
  | none => .error ("User wallet not found: " ++ walletId)

/-- `MintOperation.executeUserAuthorize(step)` (step 2): resolve the user
seed from the secret store, read `operations.issuance_id` (throws when
absent), build the authorize transaction, then submit and wait exactly as
step 1 (without the issuance-extraction tail).  Errors go through the
same catch-all.  No lock is acquired. -/
def executeUserAuthorize (env : MintEnv) (opId : String) (step : StepRow)
    (db : DB) : StepRun :=
  stepCatchAll step.id <|
    match env.secrets env.userWalletId with
    | none => ⟨db, .error ("Wallet not found: " ++ env.userWalletId), []⟩
    | some seed =>
      match getMPTIssuanceId db opId with
      | .error e => ⟨db, .error e, []⟩
      | .ok _mid =>
        submitAndAwait db step.id (walletAddressOfSeed seed)
          env.submit2 env.lookups2 (fun db2 _ => db2)

/-- `MintOperation.executeIssuerTransfer(step)` (step 3): resolve the
issuer seed, read the user's address and the issuance id (each throws
when absent), build the payment, then submit and wait exactly as step 2.
Errors go through the same catch-all.  No lock is acquired. -/
def executeIssuerTransfer (env : MintEnv) (opId : String) (step : StepRow)
    (db : DB) : StepRun :=
  stepCatchAll step.id <|
    match env.issuerSeed with
    | none => ⟨db, .error "ISSUER_SEED is not configured in .env", []⟩
    | some seed =>
      match getUserAddress db env.userWalletId with
      | .error e => ⟨db, .error e, []⟩
      | .ok _addr =>
        match getMPTIssuanceId db opId with
        | .error e => ⟨db, .error e, []⟩
        | .ok _mid =>
          submitAndAwait db step.id (walletAddressOfSeed seed)
            env.submit3 env.lookups3 (fun db2 _ => db2)

/-- `MintOperation.executeStep(step)`: dispatch on `step.stepNo`. -/
def mintExecuteStep (env : MintEnv) (opId : String) (step : StepRow)
    (db : DB) : StepRun :=
  match step.stepNo with
  | 1 => executeIssuerMint env opId step db
  | 2 => executeUserAuthorize env opId step db
  | 3 => executeIssuerTransfer env opId step db
  | n => ⟨db, .error ("Unknown step number: " ++ toString n), []⟩

/-! ## BaseOperation.execute -/

/-- Insert a step into a list sorted by ascending `step_no`
(stable: equal keys keep their relative order). -/
def insertByStepNo (s : StepRow) : List StepRow → List StepRow
  | [] => [s]
  | t :: rest =>
    if s.stepNo < t.stepNo then s :: t :: rest
    else t :: insertByStepNo s rest

/-- `ORDER BY step_no ASC` as a stable insertion sort. -/
def sortByStepNo : List StepRow → List StepRow
  | [] => []
  | s :: rest => insertByStepNo s (sortByStepNo rest)

/-- `getSteps()`: all steps of the operation in ascending `step_no`. -/
def getStepsOf (db : DB) (opId : String) : List StepRow :=
  sortByStepNo (db.steps.filter fun s => s.operationId = opId)

/-- The `for (const step of steps)` loop of `BaseOperation.execute`:
skip steps already VALIDATED_SUCCESS; otherwise run the kind-specific
routine — a thrown error propagates out of the loop uncaught — then
re-read the step and, when its status is VALIDATED_FAILED or TIMEOUT,
mark the operation FAILED with `Step ${n} failed: ${status}` and return;
when the loop finishes, mark the operation SUCCESS. -/
def executeLoop (execStep : StepRow → DB → StepRun) (opId : String) :
    List StepRow → DB → StepRun
  | [], db =>
    ⟨updateOperationStatusDB db opId OperationStatus.success none, .ok (), []⟩
  | s :: rest, db =>
    if s.status = StepStatus.validatedSuccess then
      executeLoop execStep opId rest db
    else
      let r := execStep s db
      match r.outcome with
      | .error e => ⟨r.db, .error e, r.events⟩
      | .ok _ =>
        match r.db.findStep s.id with
        | none => ⟨r.db, .error ("Step not found: " ++ s.id), r.events⟩
        | some updated =>
          if updated.status = StepStatus.validatedFailed
              ∨ updated.status = StepStatus.timeout then
            ⟨updateOperationStatusDB r.db opId OperationStatus.failed
               (some ("Step " ++ toString s.stepNo ++ " failed: "
                 ++ updated.status.str)),
             .ok (), r.events⟩
          else
            let rec' := executeLoop execStep opId rest r.db
            ⟨rec'.db, rec'.outcome, r.events ++ rec'.events⟩

/-- `BaseOperation.execute()`: set the operation IN_PROGRESS, load its
steps in ascending `step_no`, and run the loop above. -/
def executeOperation (execStep : StepRow → DB → StepRun) (opId : String)
    (db : DB) : StepRun :=
  let db1 := updateOperationStatusDB db opId OperationStatus.inProgress none
  executeLoop execStep opId (getStepsOf db1 opId) db1

/-- A full `MintOperation.execute()` run under a given environment. -/
def mintExecute (env : MintEnv) (opId : String) (db : DB) : StepRun :=
  executeOperation (mintExecuteStep env opId) opId db

/-! ## api/handlers/mint.ts: handleMint -/

/-- The parsed body of `POST /api/operations/mint`.  `none` models an
absent field; the deprecated inputs are kept only as present/absent. -/
structure MintRequest where
  idempotencyKey : Option String
  userWalletId : Option String
  amount : Option String
  metadata : Option String
  hasIssuerWalletId : Bool
  hasAssetScale : Bool
  hasMaximumAmount : Bool
  hasTransferFee : Bool
deriving DecidableEq, Repr

/-- JavaScript truthiness of a string field: `!body.f` is true when the
field is absent or the empty string. -/
def strFieldMissing : Option String → Bool
  | none => true
  | some s => s = ""

/-- `IdempotencyValidator.getOperationByKey(key)`:
`SELECT … FROM operations WHERE idempotency_key = $1`, first row. -/
def getOperationByKey (db : DB) (key : String) : Option OperationRow :=
  db.operations.find? fun o => o.idempotencyKey = key

/-- The response `handleMint` produces (the HTTP code is recovered by
`mintHttpStatus`). -/
inductive MintResponse where
  | badRequestMissing
  | badRequestDeprecated (fields : List String)
  | okExisting (operationId : String) (status : OperationStatus)
      (issuanceId : Option String)
  | created (operationId : String) (status : OperationStatus)
deriving DecidableEq, Repr

/-- HTTP status code of each `handleMint` response. -/
def mintHttpStatus : MintResponse → Nat
  | .badRequestMissing => 400
  | .badRequestDeprecated _ => 400
  | .okExisting _ _ _ => 200
  | .created _ _ => 201

/-- One durable write statement issued by a front-door handler. -/
inductive WriteStmt where
  | insertOperation (row : OperationRow)
  | insertStep (row : StepRow)
deriving DecidableEq, Repr

/-- Apply one write statement to the store. -/
def applyStmt (db : DB) : WriteStmt → DB
  | .insertOperation row => { db with operations := db.operations ++ [row] }
  | .insertStep row => { db with steps := db.steps ++ [row] }

/-- Apply one atomic unit (all statements of one transaction). -/
def applyUnit (db : DB) (u : List WriteStmt) : DB := u.foldl applyStmt db

/-- Apply a sequence of atomic units.  Each unit boundary is a durable
state: a crash between units leaves exactly the prefix applied. -/
def applyUnits (db : DB) (us : List (List WriteStmt)) : DB :=
  us.foldl applyUnit db

/-- The operation row `handleMint` inserts (`type` is
`OperationType.MINT = 'mint'`; `issuance_id` and `from_wallet_id` are
null; status PENDING). -/
def mintOperationRow (operationId key userWalletId amount : String) :
    OperationRow :=
  { id := operationId
    opType := "mint"
    idempotencyKey := key
    issuanceId := none
    fromWalletId := none
    toWalletId := some userWalletId
    amount := amount
    status := OperationStatus.pending
    errorMessage := none }

/-- A freshly inserted step row (status PENDING, no tx hash, no results). -/
def newStepRow (stepId operationId : String) (stepNo : Nat)
    (kind : String) (walletId : Option String) (txType : String) : StepRow :=
  { id := stepId
    operationId := operationId
    stepNo := stepNo
    kind := kind
    walletId := walletId
    txType := txType
    txHash := none
    submitRecorded := false
    validatedResult := none
    status := StepStatus.pending
    lastCheckedBumps := 0 }

/-- The durable writes of `handleMint`'s creation path, grouped by
transaction.  The source issues four independent `pool.query` calls —
one INSERT for the operation and one INSERT per step, with no
BEGIN/COMMIT around them — so every unit is a single statement. -/
def handleMintWriteUnits (operationId s1 s2 s3 key userWalletId amount :
    String) : List (List WriteStmt) :=
  [[WriteStmt.insertOperation (mintOperationRow operationId key userWalletId amount)],
   [WriteStmt.insertStep (newStepRow s1 operationId 1 "issuer_mint" none
      "MPTokenIssuanceCreate")],
   [WriteStmt.insertStep (newStepRow s2 operationId 2 "user_authorize"
      (some userWalletId) "MPTokenAuthorize")],
   [WriteStmt.insertStep (newStepRow s3 operationId 3 "issuer_transfer" none
      "Payment")]]

/-- `handleMint(req, pool)`: validate required fields, reject deprecated
fields, consult the idempotency index (returning the existing operation's
id and status with HTTP 200 on a hit), otherwise insert the operation and
its three steps (as the separate statements of `handleMintWriteUnits`)
and answer 201 with the new id and status PENDING.  The background
`mintOperation.execute()` spawn is modelled separately by `mintExecute`. -/
def handleMint (db : DB) (req : MintRequest)
    (operationId s1 s2 s3 : String) : DB × MintResponse :=
  if strFieldMissing req.idempotencyKey || strFieldMissing req.userWalletId
      || strFieldMissing req.amount then
    (db, .badRequestMissing)
  else
    let deprecated :=
      (if req.hasIssuerWalletId then ["issuerWalletId"] else [])
      ++ (if req.hasAssetScale then ["assetScale"] else [])
      ++ (if req.hasMaximumAmount then ["maximumAmount"] else [])
      ++ (if req.hasTransferFee then ["transferFee"] else [])
    if deprecated ≠ [] then
      (db, .badRequestDeprecated deprecated)
    else
      let key := req.idempotencyKey.getD ""
      match getOperationByKey db key with
      | some op => (db, .okExisting op.id op.status op.issuanceId)
      | none =>
        let db' := applyUnits db
          (handleMintWriteUnits operationId s1 s2 s3 key
            (req.userWalletId.getD "") (req.amount.getD ""))
        (db', .created operationId OperationStatus.pending)

/-! ## WalletLockManager (wallet-lock-manager.ts) -/

/-- `WalletLockManager.isLocked(walletId)`: whether the lock map has an
entry for the wallet.  The map is modelled by its key set (each value is
a pending promise, irrelevant to the claims). -/
def isLocked (locks : List String) (walletId : String) : Bool :=
  locks.contains walletId

/-- Result of one `withLock(walletId, fn)` call: the call's result (the
function's value, or its rethrown error), the lock map after the call,
and what `isLocked(walletId)` reads while `fn` runs. -/
structure WithLockRun (α : Type) where
  result : Except String α
  locksAfter : List String
  lockedDuringFn : Bool

/-- `WalletLockManager.withLock(walletId, fn)`, sequential semantics of a
single call: the `while (this.locks.has(walletId))` entry wait has
completed (callers reach the body only once the map has no entry for the
id — the precondition of the theorems below), the call stores its own
promise under `walletId`, runs `fn`, and in `finally` deletes the map
entry and resolves the promise, returning `fn`'s value or rethrowing its
error.  `fn` is modelled by its outcome. -/
def withLock (locks : List String) (walletId : String)
    (fn : Except String α) : WithLockRun α :=
  let locksDuring := walletId :: locks
  { result := fn
    locksAfter := locksDuring.erase walletId
    lockedDuringFn := isLocked locksDuring walletId }

/-! ## Logger secret redaction (logger.ts) -/

mutual
/-- JSON-like values of a log context.  Arrays behave like objects under
the source's `typeof obj[key] === 'object'` recursion, so `obj` covers
them. -/
inductive JVal where
  | str : String → JVal
  | num : Int → JVal
  | obj : JFields → JVal
/-- The key/value fields of a JSON object. -/
inductive JFields where
  | nil : JFields
  | cons : String → JVal → JFields → JFields
end

deriving instance DecidableEq for JVal
deriving instance DecidableEq for JFields
deriving instance Repr for JVal
deriving instance Repr for JFields

/-- Boolean test that `needle` is an initial segment of `hay`. -/
def charListLeads : List Char → List Char → Bool
  | [], _ => true
  | _ :: _, [] => false
  | a :: as, b :: bs => a == b && charListLeads as bs

/-- Boolean test that `needle` occurs contiguously inside `hay`
(JavaScript `String.prototype.includes`). -/
def charListOccurs (needle : List Char) : List Char → Bool
  | [] => charListLeads needle []
  | b :: bs => charListLeads needle (b :: bs) || charListOccurs needle bs

/-- The `sensitiveKeys` denylist of `Logger.containsSensitiveData`,
verbatim (note the camel-case entries). -/
def sensitiveKeys : List String :=
  ["seed", "secret", "privateKey", "private_key", "password",
   "masterKey", "master_key"]

/-- ASCII lower-casing of one character (`String.prototype.toLowerCase`
restricted to the ASCII identifiers the log contexts carry). -/
def lowerChar (c : Char) : Char :=
  if 65 ≤ c.toNat ∧ c.toNat ≤ 90 then Char.ofNat (c.toNat + 32) else c

/-- `sensitiveKeys.some(sk => key.toLowerCase().includes(sk))`: the key is
lower-cased, the denylist entry is not, and `includes` is case-sensitive. -/
def keyMatchesSensitive (key : String) : Bool :=
  sensitiveKeys.any fun sk =>
    charListOccurs sk.data (key.data.map lowerChar)

/-- The seed-shape test on string values:
`value.length > 20 && value.startsWith('s')`. -/
def seedLikeValue (s : String) : Bool :=
  decide (s.data.length > 20) &&
    (match s.data with
     | c :: _ => c == 's'
     | [] => false)

mutual
/-- `checkObject` from `Logger.containsSensitiveData`, on a value: only
objects are inspected. -/
def checkVal : JVal → Bool
  | .str _ => false
  | .num _ => false
  | .obj fs => checkFields fs
/-- `checkObject` over the keys of an object: flag a denylisted key name,
recurse into object values, and flag seed-shaped string values. -/
def checkFields : JFields → Bool
  | .nil => false
  | .cons k v rest =>
    keyMatchesSensitive k
    || (match v with | .obj fs => checkFields fs | _ => false)
    || (match v with | .str s => seedLikeValue s | _ => false)
    || checkFields rest
end

/-- `Logger.containsSensitiveData(context)`. -/
def containsSensitiveData (context : JFields) : Bool :=
  checkFields context

/-- What one `Logger.log(level, message, context?)` call emits. -/
inductive LogEmission where
  | notEmitted
  | redacted (originalMessage : String)
  | entry (message : String) (context : JFields)
deriving DecidableEq, Repr

/-- `Logger.log`: drop records below the minimum level; when the context
is present and `containsSensitiveData` flags it, emit the redaction
notice carrying only the original message; otherwise emit the entry with
the context spread into it. -/
def logEmit (minLevel level : Nat) (message : String)
    (context : Option JFields) : LogEmission :=
  if level < minLevel then .notEmitted
  else
    match context with
    | some c =>
      if containsSensitiveData c then .redacted message
      else .entry message c
    | none => .entry message .nil

/-! ## Concrete fixtures used by the witnesses and counterexamples -/

/-- Equality of `Except` outcomes is decidable componentwise. -/
instance {e a : Type} [DecidableEq e] [DecidableEq a] :
    DecidableEq (Except e a) := fun x y =>
  match x, y with
  | .ok v, .ok w =>
    if h : v = w then isTrue (by rw [h]) else isFalse (by simp [h])
  | .error v, .error w =>
    if h : v = w then isTrue (by rw [h]) else isFalse (by simp [h])
  | .ok _, .error _ => isFalse fun h => Except.noConfusion h
  | .error _, .ok _ => isFalse fun h => Except.noConfusion h

/-- Step 1 of a freshly created mint operation `op-1`. -/
def step1Pending : StepRow :=
  { id := "s1", operationId := "op-1", stepNo := 1, kind := "issuer_mint",
    walletId := none, txType := "MPTokenIssuanceCreate", txHash := none,
    submitRecorded := false, validatedResult := none,
    status := StepStatus.pending, lastCheckedBumps := 0 }

/-- Step 2 of `op-1`. -/
def step2Pending : StepRow :=
  { step1Pending with
    id := "s2"
    stepNo := 2
    kind := "user_authorize"
    walletId := some "U"
    txType := "MPTokenAuthorize" }

/-- Step 3 of `op-1`. -/
def step3Pending : StepRow :=
  { step1Pending with
    id := "s3"
    stepNo := 3
    kind := "issuer_transfer"
    walletId := none
    txType := "Payment" }

/-- The operation row of `op-1` as `handleMint` creates it. -/
def opRow1 : OperationRow :=
  { id := "op-1", opType := "mint", idempotencyKey := "K", issuanceId := none,
    fromWalletId := none, toWalletId := some "U", amount := "1000",
    status := OperationStatus.pending, errorMessage := none }

/-- A store holding the freshly created mint operation `op-1` (idempotency
token `K`) with its three PENDING steps and the user wallet `U`. -/
def dbMint0 : DB :=
  { operations := [opRow1]
    steps := [step1Pending, step2Pending, step3Pending]
    wallets := [⟨"U", "rUSER"⟩] }

/-- A lookup response: validated with `tesSUCCESS`, metadata carrying
`mpt_issuance_id = "MPTID1"`. -/
def tesOutcome : LookupOutcome :=
  .ok ⟨true, some ⟨some "tesSUCCESS", some "MPTID1"⟩⟩

/-- A lookup response: validated with the permanent-failure code
`tecNO_AUTH`. -/
def tecOutcome : LookupOutcome :=
  .ok ⟨true, some ⟨some "tecNO_AUTH", none⟩⟩

/-- The benign not-yet-in-a-ledger lookup outcome. -/
def notYet : LookupOutcome := .errTxnNotFound

/-- Eight successive not-yet-validated responses — enough to exhaust the
default 15 s inline budget at one lookup per 2 s. -/
def eightNotYet : List LookupOutcome :=
  [notYet, notYet, notYet, notYet, notYet, notYet, notYet, notYet]

/-- Environment in which step 1 submits fine but its transaction never
validates within the inline budget (steps 2 and 3 would validate). -/
def envTimeout1 : MintEnv :=
  { issuerSeed := some "sISSUER"
    secrets := fun w => if w = "U" then some "sUSER" else none
    submit1 := .ok ⟨"H1"⟩
    lookups1 := eightNotYet
    submit2 := .ok ⟨"H2"⟩
    lookups2 := [tesOutcome]
    submit3 := .ok ⟨"H3"⟩
    lookups3 := [tesOutcome]
    userWalletId := "U"
    amount := "1000" }

/-- Environment in which step 1 validates with the permanent failure
`tecNO_AUTH`. -/
def envFail1 : MintEnv := { envTimeout1 with lookups1 := [tecOutcome] }

/-- Environment in which step 1 validates with `tesSUCCESS` but the
validated metadata carries no `mpt_issuance_id`. -/
def envNoMeta : MintEnv :=
  { envTimeout1 with lookups1 := [.ok ⟨true, some ⟨some "tesSUCCESS", none⟩⟩] }

/-- Environment of the happy path: every step validates with `tesSUCCESS`
and step 1's metadata carries the issuance id. -/
def envGood : MintEnv := { envTimeout1 with lookups1 := [tesOutcome] }

/-- Step 1 of `op-1` parked in PENDING_VALIDATION with its tx hash
recorded — exactly what the poller sweep selects. -/
def stepPV : StepRow :=
  { step1Pending with
    status := StepStatus.pendingValidation
    txHash := some "H1" }

/-- A store where `op-1` is IN_PROGRESS, steps 2 and 3 already
VALIDATED_SUCCESS, and step 1 is awaiting the poller. -/
def dbPV : DB :=
  { dbMint0 with
    operations := [{ opRow1 with status := OperationStatus.inProgress }]
    steps := [stepPV,
      { step2Pending with status := StepStatus.validatedSuccess },
      { step3Pending with status := StepStatus.validatedSuccess }] }

/-- A well-formed mint request with the fresh idempotency token `K2`. -/
def req1 : MintRequest :=
  { idempotencyKey := some "K2", userWalletId := some "U", amount := some "500",
    metadata := none, hasIssuerWalletId := false, hasAssetScale := false,
    hasMaximumAmount := false, hasTransferFee := false }

/-- The same request with the already-used idempotency token `K`. -/
def reqDup : MintRequest := { req1 with idempotencyKey := some "K" }

/-- Number of operation rows carrying a given idempotency token. -/
def opsWithKey (db : DB) (key : String) : Nat :=
  (db.operations.filter fun o => o.idempotencyKey = key).length

/-! ## Helper lemmas -/

/-- `find?` over a conditional map commutes when the rewrite preserves the
predicate. -/
theorem find?_map_update {α : Type} (q : α → Prop) [DecidablePred q]
    (f : α → α) (hq : ∀ a, q (f a) ↔ q a) :
    ∀ l : List α,
      (l.map fun a => if q a then f a else a).find? (fun a => decide (q a)) =
        (l.find? fun a => decide (q a)).map f
  | [] => rfl
  | a :: l => by
    by_cases h : q a
    · simp [List.find?, h, hq]
    · simp [List.find?, h, hq, find?_map_update q f hq l]

/-- Updating a step leaves operation lookups unchanged. -/
theorem findOperation_updateStep (db : DB) (sid : String)
    (f : StepRow → StepRow) (i : String) :
    (db.updateStep sid f).findOperation i = db.findOperation i := rfl

/-- Updating an operation leaves step lookups unchanged. -/
theorem findStep_updateOperation (db : DB) (i : String)
    (f : OperationRow → OperationRow) (sid : String) :
    (db.updateOperation i f).findStep sid = db.findStep sid := rfl

/-- Looking up the operation just rewritten, when the rewrite keeps the id. -/
theorem findOperation_updateOperation_self (db : DB) (i : String)
    (f : OperationRow → OperationRow) (hid : ∀ o, (f o).id = o.id) :
    (db.updateOperation i f).findOperation i = (db.findOperation i).map f := by
  unfold DB.updateOperation DB.findOperation
  dsimp only
  exact find?_map_update (fun o => o.id = i) f (fun o => by simp [hid o])
    db.operations

/-- Looking up the step just rewritten, when the rewrite keeps the id. -/
theorem findStep_updateStep_self (db : DB) (sid : String)
    (f : StepRow → StepRow) (hid : ∀ s, (f s).id = s.id) :
    (db.updateStep sid f).findStep sid = (db.findStep sid).map f := by
  unfold DB.updateStep DB.findStep
  dsimp only
  exact find?_map_update (fun s => s.id = sid) f (fun s => by simp [hid s])
    db.steps

/-- The catch-all wrapper never changes the routine's outcome. -/
theorem stepCatchAll_outcome (sid : String) (r : StepRun) :
    (stepCatchAll sid r).outcome = r.outcome := by
  unfold stepCatchAll
  cases h : r.outcome <;> simp [h]

/-- The catch-all wrapper never changes the routine's event trace. -/
theorem stepCatchAll_events (sid : String) (r : StepRun) :
    (stepCatchAll sid r).events = r.events := by
  unfold stepCatchAll
  cases h : r.outcome <;> simp [h]

/-- The submit-then-wait tail emits exactly one submit event and no lock
events. -/
theorem submitAndAwait_events (db : DB) (sid addr : String)
    (so : Except String SubmitResult) (ls : List LookupOutcome)
    (onSuccess : DB → ValidationResult → DB) :
    (submitAndAwait db sid addr so ls onSuccess).events = [Event.submit addr] := by
  unfold submitAndAwait
  cases so with
  | error e => rfl
  | ok sr =>
    dsimp only
    split <;> try rfl
    split <;> rfl

/-- A single submit event carries no lock event. -/
theorem hasLockEvent_submit (addr : String) :
    hasLockEvent [Event.submit addr] = false := rfl

/-- The empty trace carries no lock event. -/
theorem hasLockEvent_nil : hasLockEvent [] = false := rfl

/-- `hasLockEvent` distributes over trace concatenation. -/
theorem hasLockEvent_append (xs ys : List Event) :
    hasLockEvent (xs ++ ys) = (hasLockEvent xs || hasLockEvent ys) := by
  unfold hasLockEvent
  exact List.any_append

/-- Step routine 1 never emits a lock event. -/
theorem hasLockEvent_executeIssuerMint (env : MintEnv) (opId : String)
    (step : StepRow) (db : DB) :
    hasLockEvent (executeIssuerMint env opId step db).events = false := by
  unfold executeIssuerMint
  rw [stepCatchAll_events]
  cases env.issuerSeed with
  | none => rfl
  | some seed => rw [submitAndAwait_events]; rfl

/-- Step routine 2 never emits a lock event. -/
theorem hasLockEvent_executeUserAuthorize (env : MintEnv) (opId : String)
    (step : StepRow) (db : DB) :
    hasLockEvent (executeUserAuthorize env opId step db).events = false := by
  unfold executeUserAuthorize
  rw [stepCatchAll_events]
  cases env.secrets env.userWalletId with
  | none => rfl
  | some seed =>
    dsimp only
    cases getMPTIssuanceId db opId with
    | error e => rfl
    | ok mid => rw [submitAndAwait_events]; rfl

/-- Step routine 3 never emits a lock event. -/
theorem hasLockEvent_executeIssuerTransfer (env : MintEnv) (opId : String)
    (step : StepRow) (db : DB) :
    hasLockEvent (executeIssuerTransfer env opId step db).events = false := by
  unfold executeIssuerTransfer
  rw [stepCatchAll_events]
  cases env.issuerSeed with
  | none => rfl
  | some seed =>
    dsimp only
    cases getUserAddress db env.userWalletId with
    | error e => rfl
    | ok addr =>
      dsimp only
      cases getMPTIssuanceId db opId with
      | error e => rfl
      | ok mid => rw [submitAndAwait_events]; rfl

/-- The step dispatcher never emits a lock event. -/
theorem hasLockEvent_mintExecuteStep (env : MintEnv) (opId : String)
    (step : StepRow) (db : DB) :
    hasLockEvent (mintExecuteStep env opId step db).events = false := by
  unfold mintExecuteStep
  match h : step.stepNo with
  | 1 => exact hasLockEvent_executeIssuerMint env opId step db
  | 2 => exact hasLockEvent_executeUserAuthorize env opId step db
  | 3 => exact hasLockEvent_executeIssuerTransfer env opId step db
  | 0 => rfl
  | (n + 4) => rfl

/-- The executor loop emits no lock event when no step routine does. -/
theorem hasLockEvent_executeLoop (execStep : StepRow → DB → StepRun)
    (opId : String)
    (h : ∀ s db, hasLockEvent (execStep s db).events = false) :
    ∀ (steps : List StepRow) (db : DB),
      hasLockEvent (executeLoop execStep opId steps db).events = false
  | [], db => rfl
  | s :: rest, db => by
    unfold executeLoop
    by_cases hs : s.status = StepStatus.validatedSuccess
    · simp only [hs, if_true]
      exact hasLockEvent_executeLoop execStep opId h rest db
    · simp only [hs, if_false]
      cases ho : (execStep s db).outcome with
      | error e => simpa using h s db
      | ok u =>
        dsimp only
        cases hf : (execStep s db).db.findStep s.id with
        | none => simpa using h s db
        | some updated =>
          dsimp only
          split
          · simpa using h s db
          · dsimp only
            rw [hasLockEvent_append]
            rw [h s db, hasLockEvent_executeLoop execStep opId h rest _]
            rfl

/-- While the budget is open, unclassifiable lookups are consumed one per
poll interval, and the first classifiable lookup inside the budget
terminates the wait with its classification. -/
theorem waitLoop_skip_unclassified (timeoutMs pollIntervalMs : Nat) :
    ∀ (pre : List LookupOutcome) (elapsed : Nat) (r : LookupOutcome)
      (rest : List LookupOutcome) (vr : ValidationResult),
      (∀ x ∈ pre, classifyLookup x = none) →
      elapsed + pre.length * pollIntervalMs < timeoutMs →
      classifyLookup r = some vr →
      waitLoop timeoutMs pollIntervalMs elapsed (pre ++ r :: rest) =
        (vr, pre.length + 1)
  | [], elapsed, r, rest, vr, _, hb, hr => by
    unfold waitLoop
    have he : elapsed < timeoutMs := by simpa using hb
    simp [he, hr]
  | x :: pre, elapsed, r, rest, vr, hpre, hb, hr => by
    unfold waitLoop
    have he : elapsed < timeoutMs :=
      lt_of_le_of_lt (Nat.le_add_right _ _) hb
    have hx : classifyLookup x = none := hpre x (List.mem_cons_self x pre)
    have hb' : (elapsed + pollIntervalMs) + pre.length * pollIntervalMs
        < timeoutMs := by
      have : elapsed + (x :: pre).length * pollIntervalMs =
          (elapsed + pollIntervalMs) + pre.length * pollIntervalMs := by
        simp [List.length_cons, Nat.succ_mul]
        ring
      rw [this] at hb
      exact hb
    have ih := waitLoop_skip_unclassified timeoutMs pollIntervalMs pre
      (elapsed + pollIntervalMs) r rest vr
      (fun y hy => hpre y (List.mem_cons_of_mem x hy)) hb' hr
    simp [he, hx, ih]

/-- When every lookup of a stream segment is unclassifiable, the segment
is consumed while the budget is open, and the wait times out at the first
condition check at or past the budget — without touching the rest of the
stream. -/
theorem waitLoop_timeout_after (timeoutMs pollIntervalMs : Nat) :
    ∀ (pre rest : List LookupOutcome) (elapsed : Nat),
      (∀ x ∈ pre, classifyLookup x = none) →
      (∀ i < pre.length, elapsed + i * pollIntervalMs < timeoutMs) →
      timeoutMs ≤ elapsed + pre.length * pollIntervalMs →
      waitLoop timeoutMs pollIntervalMs elapsed (pre ++ rest) =
        (⟨ValidationStatus.timeout, none, none⟩, pre.length)
  | [], rest, elapsed, _, _, hend => by
    unfold waitLoop
    have : ¬ elapsed < timeoutMs := by
      simp only [List.length_nil, Nat.zero_mul, Nat.add_zero] at hend
      omega
    simp [this]
  | x :: pre, rest, elapsed, hpre, hiter, hend => by
    unfold waitLoop
    have he : elapsed < timeoutMs := by
      have := hiter 0 (by simp)
      simpa using this
    have hx : classifyLookup x = none := hpre x (List.mem_cons_self x pre)
    have hiter' : ∀ i < pre.length,
        (elapsed + pollIntervalMs) + i * pollIntervalMs < timeoutMs := by
      intro i hi
      have := hiter (i + 1) (by simpa using Nat.succ_lt_succ hi)
      have harith : elapsed + (i + 1) * pollIntervalMs =
          (elapsed + pollIntervalMs) + i * pollIntervalMs := by ring
      rw [harith] at this
      exact this
    have hend' : timeoutMs ≤
        (elapsed + pollIntervalMs) + pre.length * pollIntervalMs := by
      have harith : elapsed + (x :: pre).length * pollIntervalMs =
          (elapsed + pollIntervalMs) + pre.length * pollIntervalMs := by
        simp [List.length_cons, Nat.succ_mul]
        ring
      rw [harith] at hend
      exact hend
    have ih := waitLoop_timeout_after timeoutMs pollIntervalMs pre rest
      (elapsed + pollIntervalMs)
      (fun y hy => hpre y (List.mem_cons_of_mem x hy)) hiter' hend'
    simp [he, hx, ih]

/-! ## Claim theorems -/

/-- C1: the claim says each poller pass queries the ledger for every
selected PENDING_VALIDATION step and promotes it according to the
validated result.  The code calls `waitForValidation(tx_hash, 0, 0)`,
whose loop guard `Date.now() - startTime < 0` is false immediately: the
wait returns TIMEOUT after performing zero ledger lookups, so `checkStep`
always takes the not-yet-validated branch.  Even when a single lookup
would have returned a validated `tesSUCCESS`, the step stays
PENDING_VALIDATION, the parent operation stays IN_PROGRESS, and no lookup
is performed. -/
theorem C1_poller_never_queries_ledger :
    (∀ lookups : List LookupOutcome,
      waitForValidation 0 0 lookups =
        (⟨ValidationStatus.timeout, none, none⟩, 0)) ∧
    (pollerCheckStep dbPV stepPV [tesOutcome]).2 = 0 ∧
    ((pollerCheckStep dbPV stepPV [tesOutcome]).1.findStep "s1").map
      (fun s => s.status) = some StepStatus.pendingValidation ∧
    ((pollerCheckStep dbPV stepPV [tesOutcome]).1.findOperation "op-1").map
      (fun o => o.status) = some OperationStatus.inProgress ∧
    pollerSweepSelects stepPV = true := by
  refine ⟨fun lookups => ?_, by decide, by decide, by decide, by decide⟩
  unfold waitForValidation waitLoop
  simp

/-- C2: the claim says an inline validation TIMEOUT leaves the step's
durable status at PENDING_VALIDATION while raising a timeout error.  The
routine's TIMEOUT branch does set PENDING_VALIDATION and throw — but its
own catch-all then overwrites the step to VALIDATED_FAILED before
rethrowing, so the durable status after the routine is VALIDATED_FAILED,
not PENDING_VALIDATION. -/
theorem C2_inline_timeout_marks_step_validated_failed :
    (executeIssuerMint envTimeout1 "op-1" step1Pending dbMint0).outcome =
      Except.error "Transaction validation timeout" ∧
    ((executeIssuerMint envTimeout1 "op-1" step1Pending dbMint0).db.findStep
      "s1").map (fun s => s.status) = some StepStatus.validatedFailed ∧
    StepStatus.validatedFailed ≠ StepStatus.pendingValidation :=
  ⟨by decide, by decide, by decide⟩

/-- C3: the claim says the executor, on re-reading a failed step, sets the
operation FAILED with a message referencing the step number.  In the code
every failure path of a step routine rethrows after recording the step
status, `execute()` has no try/catch around `executeStep`, and the
background spawn only logs — so on a step-1 permanent validation failure
the re-read branch is never reached, the error escapes `execute()`, later
steps never run, and the operation stays IN_PROGRESS forever. -/
theorem C3_step_failure_leaves_operation_in_progress :
    (mintExecute envFail1 "op-1" dbMint0).outcome =
      Except.error "Transaction validation failed: tecNO_AUTH" ∧
    ((mintExecute envFail1 "op-1" dbMint0).db.findOperation "op-1").map
      (fun o => o.status) = some OperationStatus.inProgress ∧
    ((mintExecute envFail1 "op-1" dbMint0).db.findStep "s1").map
      (fun s => s.status) = some StepStatus.validatedFailed ∧
    ((mintExecute envFail1 "op-1" dbMint0).db.findStep "s2").map
      (fun s => s.status) = some StepStatus.pending ∧
    OperationStatus.inProgress ≠ OperationStatus.failed :=
  ⟨by decide, by decide, by decide, by decide, by decide⟩

/-- C4 counterexample: a mint step-1 run that performs a ledger
submission while emitting no identity-serializer lock event, refuting
"every step routine acquires the identity serializer lock on the step's
signer before prepare/sign/submit". -/
theorem C4_counterexample_submit_without_lock :
    hasSubmitEvent
      (executeIssuerMint envGood "op-1" step1Pending dbMint0).events = true ∧
    hasLockEvent
      (executeIssuerMint envGood "op-1" step1Pending dbMint0).events = false :=
  ⟨by decide, by decide⟩

/-- C4 amended: no step routine of the mint execution path ever acquires
the identity serializer lock — the submit/sign path runs without any lock
event, so per-signer serialization of in-flight submissions is not
enforced by the step executor (`WalletLockManager` exists but is not
invoked there). -/
theorem C4_no_step_routine_acquires_lock :
    ∀ (env : MintEnv) (opId : String) (db : DB),
      hasLockEvent (mintExecute env opId db).events = false := by
  intro env opId db
  unfold mintExecute executeOperation
  exact hasLockEvent_executeLoop _ opId
    (fun s d => hasLockEvent_mintExecuteStep env opId s d) _ _

/-- C5 counterexample: `handleMint`'s creation path issues four separate
single-statement transactions (no enclosing transaction), and applying
only the first of them yields a durable state holding the operation row
with none of its steps — refuting "inserts the operation row and all of
its operation_step rows atomically in a single database transaction, so
no durable state ever holds the operation without all of its steps". -/
theorem C5_counterexample_operation_without_steps :
    (handleMintWriteUnits "op-2" "t1" "t2" "t3" "K2" "U" "500").length = 4 ∧
    ((applyUnits dbMint0
      ((handleMintWriteUnits "op-2" "t1" "t2" "t3" "K2" "U" "500").take 1)).operations.filter
        fun o => o.id = "op-2").length = 1 ∧
    ((applyUnits dbMint0
      ((handleMintWriteUnits "op-2" "t1" "t2" "t3" "K2" "U" "500").take 1)).steps.filter
        fun s => s.operationId = "op-2") = [] :=
  ⟨by decide, by decide, by decide⟩

/-- C5 amended: the front door inserts the operation row first and then
each step row, as four separate single-statement autocommit transactions
in ascending step order; the complete run does create the operation
together with all three steps, but a crash between statements can leave
the operation durable without all of its steps (witnessed by the state
after the first statement alone). -/
theorem C5_front_door_inserts_sequentially
    (db : DB) (req : MintRequest) (opId s1 s2 s3 key u amt : String)
    (hk : req.idempotencyKey = some key) (hku : key ≠ "")
    (hu : req.userWalletId = some u) (huu : u ≠ "")
    (ha : req.amount = some amt) (haa : amt ≠ "")
    (hd1 : req.hasIssuerWalletId = false) (hd2 : req.hasAssetScale = false)
    (hd3 : req.hasMaximumAmount = false) (hd4 : req.hasTransferFee = false)
    (hnone : getOperationByKey db key = none) :
    handleMint db req opId s1 s2 s3 =
      (applyUnits db (handleMintWriteUnits opId s1 s2 s3 key u amt),
       MintResponse.created opId OperationStatus.pending) ∧
    (∀ unit ∈ handleMintWriteUnits opId s1 s2 s3 key u amt,
      unit.length = 1) ∧
    (applyUnits db
      ((handleMintWriteUnits opId s1 s2 s3 key u amt).take 1)).operations =
      db.operations ++ [mintOperationRow opId key u amt] ∧
    (applyUnits db
      ((handleMintWriteUnits opId s1 s2 s3 key u amt).take 1)).steps =
      db.steps ∧
    (applyUnits db (handleMintWriteUnits opId s1 s2 s3 key u amt)).steps =
      db.steps ++
        [newStepRow s1 opId 1 "issuer_mint" none "MPTokenIssuanceCreate",
         newStepRow s2 opId 2 "user_authorize" (some u) "MPTokenAuthorize",
         newStepRow s3 opId 3 "issuer_transfer" none "Payment"] := by
  refine ⟨?_, ?_, ?_, ?_, ?_⟩
  · unfold handleMint
    simp [strFieldMissing, hk, hu, ha, hku, huu, haa, hd1, hd2, hd3, hd4,
      hnone]
  · intro unit hunit
    simp [handleMintWriteUnits] at hunit
    rcases hunit with h | h | h | h <;> simp [h]
  · simp [handleMintWriteUnits, applyUnits, applyUnit, applyStmt]
  · simp [handleMintWriteUnits, applyUnits, applyUnit, applyStmt]
  · simp [handleMintWriteUnits, applyUnits, applyUnit, applyStmt]

/-- C5 witness: the amended statement instantiated at the concrete store
`dbMint0` and request `req1`. -/
theorem C5_front_door_inserts_sequentially_witness :
    handleMint dbMint0 req1 "op-2" "t1" "t2" "t3" =
      (applyUnits dbMint0
        (handleMintWriteUnits "op-2" "t1" "t2" "t3" "K2" "U" "500"),
       MintResponse.created "op-2" OperationStatus.pending) ∧
    (∀ unit ∈ handleMintWriteUnits "op-2" "t1" "t2" "t3" "K2" "U" "500",
      unit.length = 1) ∧
    (applyUnits dbMint0
      ((handleMintWriteUnits "op-2" "t1" "t2" "t3" "K2" "U" "500").take 1)).operations =
      dbMint0.operations ++ [mintOperationRow "op-2" "K2" "U" "500"] ∧
    (applyUnits dbMint0
      ((handleMintWriteUnits "op-2" "t1" "t2" "t3" "K2" "U" "500").take 1)).steps =
      dbMint0.steps ∧
    (applyUnits dbMint0
      (handleMintWriteUnits "op-2" "t1" "t2" "t3" "K2" "U" "500")).steps =
      dbMint0.steps ++
        [newStepRow "t1" "op-2" 1 "issuer_mint" none "MPTokenIssuanceCreate",
         newStepRow "t2" "op-2" 2 "user_authorize" (some "U") "MPTokenAuthorize",
         newStepRow "t3" "op-2" 3 "issuer_transfer" none "Payment"] :=
  C5_front_door_inserts_sequentially dbMint0 req1 "op-2" "t1" "t2" "t3"
    "K2" "U" "500" rfl (by decide) rfl (by decide) rfl (by decide)
    rfl rfl rfl rfl (by decide)

/-- C6: on an idempotency-token hit the front door answers HTTP 200 with
the existing operation's id and status and leaves the store untouched; on
a first-time token it answers HTTP 201 with the fresh operation id and
status PENDING, and exactly one operation row carries that token
afterwards. -/
theorem C6_idempotent_front_door
    (db : DB) (req : MintRequest) (opId s1 s2 s3 key : String)
    (hk : req.idempotencyKey = some key) (hku : key ≠ "")
    (hu : strFieldMissing req.userWalletId = false)
    (ha : strFieldMissing req.amount = false)
    (hd1 : req.hasIssuerWalletId = false) (hd2 : req.hasAssetScale = false)
    (hd3 : req.hasMaximumAmount = false) (hd4 : req.hasTransferFee = false) :
    (∀ op, getOperationByKey db key = some op →
      handleMint db req opId s1 s2 s3 =
        (db, MintResponse.okExisting op.id op.status op.issuanceId) ∧
      mintHttpStatus (MintResponse.okExisting op.id op.status op.issuanceId)
        = 200) ∧
    (getOperationByKey db key = none →
      (handleMint db req opId s1 s2 s3).2 =
        MintResponse.created opId OperationStatus.pending ∧
      mintHttpStatus (MintResponse.created opId OperationStatus.pending)
        = 201 ∧
      opsWithKey (handleMint db req opId s1 s2 s3).1 key = 1) := by
  have hk' : strFieldMissing (some key) = false := by
    simp [strFieldMissing, hku]
  constructor
  · intro op hop
    constructor
    · unfold handleMint
      simp [hk', hu, ha, hd1, hd2, hd3, hd4, hk, hop]
    · rfl
  · intro hnone
    have hall : ∀ o ∈ db.operations, ¬ (o.idempotencyKey = key) := by
      intro o ho
      have h := List.find?_eq_none.mp hnone o ho
      simpa using h
    have hfilter :
        db.operations.filter (fun o => o.idempotencyKey = key) = [] := by
      rw [List.filter_eq_nil_iff]
      intro a ha
      simpa using hall a ha
    have hrun : handleMint db req opId s1 s2 s3 =
        (applyUnits db (handleMintWriteUnits opId s1 s2 s3 key
          (req.userWalletId.getD "") (req.amount.getD "")),
         MintResponse.created opId OperationStatus.pending) := by
      unfold handleMint
      simp [hk', hu, ha, hd1, hd2, hd3, hd4, hk, hnone]
    refine ⟨by rw [hrun], rfl, ?_⟩
    rw [hrun]
    unfold opsWithKey
    simp [handleMintWriteUnits, applyUnits, applyUnit, applyStmt,
      List.filter_append, hfilter, mintOperationRow]

/-- C6 witness: the theorem instantiated at the concrete store `dbMint0`
— the duplicate token `K` returns the existing `op-1` with 200 and an
unchanged store, and the fresh token `K2` returns 201 with exactly one
row carrying `K2` afterwards. -/
theorem C6_idempotent_front_door_witness :
    (handleMint dbMint0 reqDup "op-2" "t1" "t2" "t3" =
      (dbMint0, MintResponse.okExisting "op-1" OperationStatus.pending none) ∧
     mintHttpStatus
       (MintResponse.okExisting "op-1" OperationStatus.pending none) = 200) ∧
    ((handleMint dbMint0 req1 "op-2" "t1" "t2" "t3").2 =
      MintResponse.created "op-2" OperationStatus.pending ∧
     mintHttpStatus (MintResponse.created "op-2" OperationStatus.pending)
       = 201 ∧
     opsWithKey (handleMint dbMint0 req1 "op-2" "t1" "t2" "t3").1 "K2" = 1) := by
  constructor
  · exact (C6_idempotent_front_door dbMint0 reqDup "op-2" "t1" "t2" "t3" "K"
      rfl (by decide) (by decide) (by decide) rfl rfl rfl rfl).1
      opRow1 (by decide)
  · exact (C6_idempotent_front_door dbMint0 req1 "op-2" "t1" "t2" "t3" "K2"
      rfl (by decide) (by decide) (by decide) rfl rfl rfl rfl).2
      (by decide)

/-- Operation lookups see through step-status updates. -/
theorem findOperation_updateStepStatusDB (db : DB) (sid : String)
    (st : StepStatus) (tx : Option String) (sb : Bool)
    (v : Option TxResultData) (i : String) :
    (updateStepStatusDB db sid st tx sb v).findOperation i =
      db.findOperation i := rfl

/-- After a step-status update, the updated step's status reads back as
the written status (when the step exists). -/
theorem findStep_status_updateStepStatusDB (db : DB) (sid : String)
    (st : StepStatus) (tx : Option String) (sb : Bool)
    (v : Option TxResultData) :
    ((updateStepStatusDB db sid st tx sb v).findStep sid).map
      (fun s => s.status) = (db.findStep sid).map (fun _ => st) := by
  unfold updateStepStatusDB DB.updateStep DB.findStep
  dsimp only
  induction db.steps with
  | nil => rfl
  | cons a l ih =>
    by_cases h : a.id = sid
    · simp [List.find?, h]
    · simp [List.find?, h]
      simpa using ih

/-- A step-status update touches only the named step's row, never its
presence. -/
theorem findStep_isSome_updateStepStatusDB (db : DB) (sid : String)
    (st : StepStatus) (tx : Option String) (sb : Bool)
    (v : Option TxResultData) :
    ((updateStepStatusDB db sid st tx sb v).findStep sid).isSome =
      (db.findStep sid).isSome := by
  unfold updateStepStatusDB DB.updateStep DB.findStep
  dsimp only
  induction db.steps with
  | nil => rfl
  | cons a l ih =>
    by_cases h : a.id = sid
    · simp [List.find?, h]
    · simp [List.find?, h]
      simpa using ih

/-- Characterization of a step-1 run whose submission succeeds and whose
inline wait reports SUCCESS: the step is marked SUBMITTED then
VALIDATED_SUCCESS, the extracted issuance id — when present — is written
to the operation, and the routine returns normally having emitted one
submit event. -/
theorem executeIssuerMint_success (env : MintEnv) (opId : String)
    (step : StepRow) (db : DB) (seed : String) (sr : SubmitResult)
    (hseed : env.issuerSeed = some seed)
    (hsub : env.submit1 = Except.ok sr)
    (hval : (waitForValidation defaultTimeoutMs defaultPollIntervalMs
      env.lookups1).1.status = ValidationStatus.success) :
    executeIssuerMint env opId step db =
      { db :=
          (let vr := (waitForValidation defaultTimeoutMs
             defaultPollIntervalMs env.lookups1).1
           let db2 := updateStepStatusDB
             (updateStepStatusDB db step.id StepStatus.submitted
               (some sr.txHash) true none)
             step.id StepStatus.validatedSuccess none false vr.details
           match extractMPTIssuanceId vr.details with
           | some mid =>
             db2.updateOperation opId fun o => { o with issuanceId := some mid }
           | none => db2)
        outcome := Except.ok ()
        events := [Event.submit (walletAddressOfSeed seed)] } := by
  unfold executeIssuerMint
  rw [hseed]
  dsimp only
  unfold submitAndAwait
  rw [hsub]
  dsimp only
  rw [if_pos hval]
  unfold stepCatchAll
  rfl

/-- C7 counterexample: a step-1 run validating `tesSUCCESS` whose
metadata carries no `mpt_issuance_id` — the routine returns normally,
the step ends VALIDATED_SUCCESS and the operation keeps a null
issuance id, refuting "when extraction fails (the field is absent), this
is treated as a step failure". -/
theorem C7_counterexample_extraction_failure_is_not_step_failure :
    (executeIssuerMint envNoMeta "op-1" step1Pending dbMint0).outcome =
      Except.ok () ∧
    ((executeIssuerMint envNoMeta "op-1" step1Pending dbMint0).db.findStep
      "s1").map (fun s => s.status) = some StepStatus.validatedSuccess ∧
    ((executeIssuerMint envNoMeta "op-1" step1Pending
      dbMint0).db.findOperation "op-1").map (fun o => o.issuanceId) =
        some none :=
  ⟨by decide, by decide, by decide⟩

/-- C7 amended: on VALIDATED_SUCCESS of MINT step 1 the executor extracts
`mpt_issuance_id` from the validated metadata and, when the field is
present, persists it to `operation.issuance_id` before the routine
returns (hence before step 2 runs); when the field is absent the routine
still completes normally with the step VALIDATED_SUCCESS and the
operation row untouched, and the missing id only surfaces when step 2
reads it and fails with `MPT Issuance ID not found`. -/
theorem C7_issuance_extraction_behavior (env : MintEnv) (opId : String)
    (step : StepRow) (db : DB) (seed : String) (sr : SubmitResult)
    (hseed : env.issuerSeed = some seed)
    (hsub : env.submit1 = Except.ok sr)
    (hval : (waitForValidation defaultTimeoutMs defaultPollIntervalMs
      env.lookups1).1.status = ValidationStatus.success) :
    (executeIssuerMint env opId step db).outcome = Except.ok () ∧
    ((executeIssuerMint env opId step db).db.findStep step.id).map
      (fun s => s.status) =
      (db.findStep step.id).map (fun _ => StepStatus.validatedSuccess) ∧
    (∀ mid,
      extractMPTIssuanceId (waitForValidation defaultTimeoutMs
        defaultPollIntervalMs env.lookups1).1.details = some mid →
      (executeIssuerMint env opId step db).db.findOperation opId =
        (db.findOperation opId).map
          fun o => { o with issuanceId := some mid }) ∧
    (extractMPTIssuanceId (waitForValidation defaultTimeoutMs
        defaultPollIntervalMs env.lookups1).1.details = none →
      (executeIssuerMint env opId step db).db.findOperation opId =
        db.findOperation opId) ∧
    (∀ (env2 : MintEnv) (opId2 : String) (st2 : StepRow) (db2 : DB)
       (o2 : OperationRow) (s2 : String),
      db2.findOperation opId2 = some o2 → o2.issuanceId = none →
      env2.secrets env2.userWalletId = some s2 →
      (executeUserAuthorize env2 opId2 st2 db2).outcome =
        Except.error "MPT Issuance ID not found" ∧
      ((executeUserAuthorize env2 opId2 st2 db2).db.findStep st2.id).map
        (fun s => s.status) =
        (db2.findStep st2.id).map (fun _ => StepStatus.validatedFailed)) := by
  have hc := executeIssuerMint_success env opId step db seed sr hseed hsub hval
  refine ⟨by rw [hc], ?_, ?_, ?_, ?_⟩
  · rw [hc]
    dsimp only
    cases hm : extractMPTIssuanceId (waitForValidation defaultTimeoutMs
        defaultPollIntervalMs env.lookups1).1.details with
    | some mid =>
      simp only [hm]
      rw [findStep_updateOperation]
      rw [findStep_status_updateStepStatusDB]
      have h1 := findStep_isSome_updateStepStatusDB db step.id
        StepStatus.submitted (some sr.txHash) true none
      cases hf : db.findStep step.id with
      | none =>
        rw [hf] at h1
        cases hg : (updateStepStatusDB db step.id StepStatus.submitted
            (some sr.txHash) true none).findStep step.id with
        | none => rfl
        | some s => rw [hg] at h1; simp at h1
      | some s =>
        rw [hf] at h1
        cases hg : (updateStepStatusDB db step.id StepStatus.submitted
            (some sr.txHash) true none).findStep step.id with
        | none => rw [hg] at h1; simp at h1
        | some t => rfl
    | none =>
      simp only [hm]
      rw [findStep_status_updateStepStatusDB]
      have h1 := findStep_isSome_updateStepStatusDB db step.id
        StepStatus.submitted (some sr.txHash) true none
      cases hf : db.findStep step.id with
      | none =>
        rw [hf] at h1
        cases hg : (updateStepStatusDB db step.id StepStatus.submitted
            (some sr.txHash) true none).findStep step.id with
        | none => rfl
        | some s => rw [hg] at h1; simp at h1
      | some s =>
        rw [hf] at h1
        cases hg : (updateStepStatusDB db step.id StepStatus.submitted
            (some sr.txHash) true none).findStep step.id with
        | none => rw [hg] at h1; simp at h1
        | some t => rfl
  · intro mid hm
    rw [hc]
    dsimp only
    simp only [hm]
    rw [findOperation_updateOperation_self
      (updateStepStatusDB (updateStepStatusDB db step.id
          StepStatus.submitted (some sr.txHash) true none)
        step.id StepStatus.validatedSuccess none false
        (waitForValidation defaultTimeoutMs defaultPollIntervalMs
          env.lookups1).1.details)
      opId (fun o => { o with issuanceId := some mid }) (fun o => rfl)]
    rw [findOperation_updateStepStatusDB, findOperation_updateStepStatusDB]
  · intro hm
    rw [hc]
    dsimp only
    simp only [hm]
    rw [findOperation_updateStepStatusDB, findOperation_updateStepStatusDB]
  · intro env2 opId2 st2 db2 o2 s2 hfind hiss hsec
    have hbody : executeUserAuthorize env2 opId2 st2 db2 =
        { db := updateStepStatusDB db2 st2.id StepStatus.validatedFailed
            none false none
          outcome := Except.error "MPT Issuance ID not found"
          events := [] } := by
      unfold executeUserAuthorize
      rw [hsec]
      dsimp only
      unfold getMPTIssuanceId
      rw [hfind]
      dsimp only
      rw [hiss]
      rfl
    rw [hbody]
    exact ⟨rfl, findStep_status_updateStepStatusDB db2 st2.id
      StepStatus.validatedFailed none false none⟩

/-- C7 witness: the amended statement instantiated on the happy path —
step 1 of `op-1` validates with metadata carrying `MPTID1`, which is
persisted to the operation before the routine returns. -/
theorem C7_issuance_extraction_behavior_witness :
    (executeIssuerMint envGood "op-1" step1Pending dbMint0).outcome =
      Except.ok () ∧
    ((executeIssuerMint envGood "op-1" step1Pending dbMint0).db.findStep
      "s1").map (fun s => s.status) =
      (dbMint0.findStep "s1").map (fun _ => StepStatus.validatedSuccess) ∧
    (executeIssuerMint envGood "op-1" step1Pending dbMint0).db.findOperation
      "op-1" = (dbMint0.findOperation "op-1").map
        (fun o => { o with issuanceId := some "MPTID1" }) := by
  have h := C7_issuance_extraction_behavior envGood "op-1" step1Pending
    dbMint0 "sISSUER" ⟨"H1"⟩ rfl rfl (by decide)
  exact ⟨h.1, h.2.1, h.2.2.1 "MPTID1" (by decide)⟩

/-- C8: the inline validation wait classifies a validated lookup as
SUCCESS exactly for `tesSUCCESS` and FAILED for any other result code;
unclassifiable lookups (not yet validated, or transient errors) are
consumed one per poll interval; and once the default 15 s budget is
exhausted — after 8 lookups at the default 2 s interval — it returns
TIMEOUT without consuming further lookups. -/
theorem C8_validation_wait_contract :
    (∀ (d : TxResultData) (m : TxMeta) (rc : String),
      d.validated = true → d.meta = some m →
      m.transactionResult = some rc →
      classifyLookup (LookupOutcome.ok d) =
        some ⟨(if rc = "tesSUCCESS" then ValidationStatus.success
               else ValidationStatus.failed), some rc, some d⟩) ∧
    (∀ (pre : List LookupOutcome) (r : LookupOutcome)
       (rest : List LookupOutcome) (vr : ValidationResult),
      (∀ x ∈ pre, classifyLookup x = none) →
      pre.length * defaultPollIntervalMs < defaultTimeoutMs →
      classifyLookup r = some vr →
      waitForValidation defaultTimeoutMs defaultPollIntervalMs
        (pre ++ r :: rest) = (vr, pre.length + 1)) ∧
    (∀ (pre rest : List LookupOutcome),
      pre.length = 8 → (∀ x ∈ pre, classifyLookup x = none) →
      waitForValidation defaultTimeoutMs defaultPollIntervalMs
        (pre ++ rest) = (⟨ValidationStatus.timeout, none, none⟩, 8)) := by
  refine ⟨?_, ?_, ?_⟩
  · intro d m rc hv hm hr
    by_cases hrc : rc = "tesSUCCESS" <;>
      simp [classifyLookup, hv, hm, hr, hrc]
  · intro pre r rest vr hpre hbound hr
    unfold waitForValidation
    exact waitLoop_skip_unclassified defaultTimeoutMs defaultPollIntervalMs
      pre 0 r rest vr hpre (by simpa using hbound) hr
  · intro pre rest hlen hpre
    unfold waitForValidation
    have h := waitLoop_timeout_after defaultTimeoutMs defaultPollIntervalMs
      pre rest 0 hpre
      (by
        intro i hi
        rw [hlen] at hi
        unfold defaultTimeoutMs defaultPollIntervalMs
        omega)
      (by
        rw [hlen]
        unfold defaultTimeoutMs defaultPollIntervalMs
        omega)
    rw [h, hlen]

/-- C8 witness: a validated `tecNO_AUTH` on the second lookup is
classified FAILED after one retry, and eight not-yet-validated lookups
exhaust the default budget with TIMEOUT. -/
theorem C8_validation_wait_contract_witness :
    classifyLookup (LookupOutcome.ok ⟨true, some ⟨some "tecNO_AUTH", none⟩⟩) =
      some ⟨ValidationStatus.failed, some "tecNO_AUTH",
        some ⟨true, some ⟨some "tecNO_AUTH", none⟩⟩⟩ ∧
    waitForValidation defaultTimeoutMs defaultPollIntervalMs
      ([notYet] ++ tecOutcome :: []) =
      (⟨ValidationStatus.failed, some "tecNO_AUTH",
        some ⟨true, some ⟨some "tecNO_AUTH", none⟩⟩⟩, 2) ∧
    waitForValidation defaultTimeoutMs defaultPollIntervalMs
      (eightNotYet ++ [tesOutcome]) =
      (⟨ValidationStatus.timeout, none, none⟩, 8) := by
  refine ⟨?_, ?_, ?_⟩
  · have h := C8_validation_wait_contract.1
      ⟨true, some ⟨some "tecNO_AUTH", none⟩⟩ ⟨some "tecNO_AUTH", none⟩
      "tecNO_AUTH" rfl rfl rfl
    simpa using h
  · exact C8_validation_wait_contract.2.1 [notYet] tecOutcome []
      ⟨ValidationStatus.failed, some "tecNO_AUTH",
        some ⟨true, some ⟨some "tecNO_AUTH", none⟩⟩⟩
      (by decide) (by decide) (by decide)
  · exact C8_validation_wait_contract.2.2 eightNotYet [tesOutcome]
      (by decide) (by decide)

/-- C9: the claim says any context key matching the denylist
case-insensitively as a substring — `privateKey` among them — triggers
the redaction notice.  The code lower-cases the key but matches the
denylist entries case-sensitively, so the camel-case entries
`privateKey` and `masterKey` can never match any key: a record with key
`privateKey` (benign short value) is emitted verbatim, while the
snake-case `private_key` is redacted as the claim describes. -/
theorem C9_privateKey_denylist_entry_never_matches :
    keyMatchesSensitive "privateKey" = false ∧
    keyMatchesSensitive "masterKey" = false ∧
    containsSensitiveData
      (JFields.cons "privateKey" (JVal.str "x") JFields.nil) = false ∧
    logEmit 1 1 "m"
      (some (JFields.cons "privateKey" (JVal.str "x") JFields.nil)) =
      LogEmission.entry "m"
        (JFields.cons "privateKey" (JVal.str "x") JFields.nil) ∧
    containsSensitiveData
      (JFields.cons "private_key" (JVal.str "x") JFields.nil) = true ∧
    logEmit 1 1 "m"
      (some (JFields.cons "private_key" (JVal.str "x") JFields.nil)) =
      LogEmission.redacted "m" ∧
    containsSensitiveData
      (JFields.cons "ctx"
        (JVal.obj (JFields.cons "note"
          (JVal.str "sEdV19BLMeccFTKRMynFqA123") JFields.nil))
        JFields.nil) = true :=
  ⟨by decide, by decide, by decide, by decide, by decide, by decide,
   by decide⟩

/-- C10: `withLock` runs the function with the map entry held (so
`isLocked` is true during the call), returns the function's value or
rethrows its error unchanged, and in `finally` removes the map entry —
so when no other call for the id is in progress (the entry was absent on
acquisition), `isLocked` is false after the call. -/
theorem C10_withLock_releases_even_on_error {α : Type} :
    ∀ (locks : List String) (wid : String) (fn : Except String α),
      (withLock locks wid fn).result = fn ∧
      (withLock locks wid fn).lockedDuringFn = true ∧
      (withLock locks wid fn).locksAfter = locks ∧
      (isLocked locks wid = false →
        isLocked (withLock locks wid fn).locksAfter wid = false) := by
  intro locks wid fn
  refine ⟨rfl, ?_, ?_, ?_⟩
  · simp [withLock, isLocked]
  · simp [withLock]
  · intro h
    simpa [withLock] using h

/-- C10 witness: a throwing function on wallet `w` — the error is
rethrown, the lock was held during the call, and the map is empty again
afterwards. -/
theorem C10_withLock_releases_even_on_error_witness :
    (withLock [] "w" (Except.error "boom" : Except String Nat)).result =
      Except.error "boom" ∧
    (withLock [] "w" (Except.error "boom" : Except String Nat)).lockedDuringFn
      = true ∧
    (withLock [] "w" (Except.error "boom" : Except String Nat)).locksAfter
      = [] ∧
    isLocked
      (withLock [] "w" (Except.error "boom" : Except String Nat)).locksAfter
      "w" = false := by
  have h := C10_withLock_releases_even_on_error []
    "w" (Except.error "boom" : Except String Nat)
  exact ⟨h.1, h.2.1, h.2.2.1, h.2.2.2 (by decide)⟩
